import Mathlib

/-!
Shallow embedding of the core decision logic of
scripts/agent_bounty_hunter.py (reward extraction, difficulty and
capability-fit scoring, lead ranking, payout-signal mining, and the
comment-posting gate).

Python floats are modelled as exact decimal numbers: every numeric
literal in the program is a decimal constant, and every arithmetic
operation the program performs (parsing decimals, multiplying by
1000/1000000, the 0.1 conversion rate, dividing by 25, adding fixed
increments, rounding to a fixed number of decimal places) is exact on
decimals, so no rounding behaviour of binary floats is modelled.  A
decimal is a pair (num, exp) denoting num / 10 ^ exp; theorem
statements read its value through Dec.toQ.  Strings are handled at the
ASCII level (Char.toLower, ASCII word characters); all texts in the
program's cue tables and in the claims are ASCII.
-/

/-- Exact decimal number num / 10 ^ exp, the model of the Python floats
used by the bounty-hunter script. -/
structure Dec where
  num : Int
  exp : Nat
deriving DecidableEq, Repr

/-- Value of a decimal as a rational. -/
def Dec.toQ (d : Dec) : ℚ := (d.num : ℚ) / 10 ^ d.exp

/-- The float 0.0. -/
def Dec.zero : Dec := ⟨0, 0⟩

/-- Python float equality on decimals (cross-multiplied). -/
def Dec.eqv (a b : Dec) : Bool := a.num * 10 ^ b.exp == b.num * 10 ^ a.exp

/-- Python float comparison a <= b on decimals (cross-multiplied). -/
def Dec.le (a b : Dec) : Bool := decide (a.num * 10 ^ b.exp ≤ b.num * 10 ^ a.exp)

/-- Python float comparison a < b on decimals (cross-multiplied). -/
def Dec.lt (a b : Dec) : Bool := decide (a.num * 10 ^ b.exp < b.num * 10 ^ a.exp)

/-- Exact product of two decimals. -/
def Dec.mul (a b : Dec) : Dec := ⟨a.num * b.num, a.exp + b.exp⟩

/-- Exact sum of two decimals (common denominator 10 ^ (a.exp + b.exp)). -/
def Dec.add (a b : Dec) : Dec :=
  ⟨a.num * 10 ^ b.exp + b.num * 10 ^ a.exp, a.exp + b.exp⟩

/-- Negation of a decimal. -/
def Dec.neg (a : Dec) : Dec := ⟨-a.num, a.exp⟩

/-- Exact difference of two decimals. -/
def Dec.sub (a b : Dec) : Dec := Dec.add a (Dec.neg b)

/-- Python max(a, b): returns b exactly when a < b (ties keep the first
argument, as in CPython). -/
def Dec.pyMax (a b : Dec) : Dec := if Dec.lt a b then b else a

/-- Python min(a, b): returns b exactly when b < a (ties keep the first
argument, as in CPython). -/
def Dec.pyMin (a b : Dec) : Dec := if Dec.lt b a then b else a

/-- Round-half-even (banker's rounding, as Python's round) of n / d for
d > 0, on integers: quotient q with remainder r = n - q * d in [0, d). -/
def roundHalfEvenInt (n d : Int) : Int :=
  let q := Int.fdiv n d
  let r := n - q * d
  if 2 * r < d then q
  else if d < 2 * r then q + 1
  else if q % 2 = 0 then q else q + 1

/-- Python round(x, k) on decimals: exact when x already has at most k
decimal places, otherwise banker's rounding of x * 10 ^ k. -/
def Dec.roundTo (k : Nat) (a : Dec) : Dec :=
  if a.exp ≤ k then a
  else ⟨roundHalfEvenInt a.num (10 ^ (a.exp - k)), k⟩

/-! ### Python string primitives (ASCII level) -/

/-- Python str.lower, ASCII range (the program's cue tables are ASCII). -/
def pyLower (s : String) : String := String.mk (s.toList.map Char.toLower)

/-- Does the character list start with the given character list? -/
def startsWithChars : List Char → List Char → Bool
  | [], _ => true
  | _ :: _, [] => false
  | a :: as, b :: bs => a == b && startsWithChars as bs

/-- Substring occurrence on character lists. -/
def containsChars (needle : List Char) : List Char → Bool
  | [] => startsWithChars needle []
  | c :: rest => startsWithChars needle (c :: rest) || containsChars needle rest

/-- Python substring test: pyIn needle haystack models needle in haystack. -/
def pyIn (needle haystack : String) : Bool :=
  containsChars needle.toList haystack.toList

/-- Line-break characters recognised by Python str.splitlines. -/
def isLineBreak (c : Char) : Bool :=
  c == '\n' || c == '\r' || c == '\x0b' || c == '\x0c' ||
  c == '\x1c' || c == '\x1d' || c == '\x1e' || c == '\x85' ||
  c == '\u2028' || c == '\u2029'

/-- Worker for splitlines: cur is the (reversed) current line. -/
def splitlinesAux : List Char → List Char → List (List Char)
  | cur, [] => if cur.isEmpty then [] else [cur.reverse]
  | cur, '\r' :: '\n' :: rest => cur.reverse :: splitlinesAux [] rest
  | cur, c :: rest =>
    if isLineBreak c then cur.reverse :: splitlinesAux [] rest
    else splitlinesAux (c :: cur) rest

/-- Python str.splitlines (no trailing empty line, empty string gives []). -/
def splitlines (s : String) : List String :=
  (splitlinesAux [] s.toList).map String.mk

/-! ### The regular-expression scanners, hand-compiled

NUM_TOKEN_RE is (with IGNORECASE)
  \b(\d{1,3}(?:,\d{3})+|\d+(?:\.\d+)?)([km])?\b
and the program matches it followed by \s*RTC(?:\)|\b) (title scan),
\s*RTC\b (line scan), or preceded by \$\s* (fiat scan).  The scanners
below enumerate the candidate matches of each bounded sub-pattern in
exactly the backtracking preference order of the Python regex engine
(greedy quantifiers try longer matches first, alternatives are tried
left to right) and commit to the first candidate whose continuation
succeeds, which is precisely the leftmost-match semantics of
re.findall.  Matching is performed on the lower-cased text, which is
equivalent to IGNORECASE on ASCII input. -/

/-- ASCII decimal digit (regex \d on the program's ASCII input). -/
def isDigitChar (c : Char) : Bool := c.isDigit

/-- ASCII word character (regex \b and \w classes on ASCII input). -/
def isWordChar (c : Char) : Bool := c.isAlphanum || c == '_'

/-- Regex \s whitespace, ASCII range. -/
def isSpaceChar (c : Char) : Bool :=
  c == ' ' || c == '\t' || c == '\n' || c == '\r' || c == '\x0b' || c == '\x0c'

/-- Length of the maximal run of digits at the head of the list. -/
def digitRun : List Char → Nat
  | c :: rest => if isDigitChar c then digitRun rest + 1 else 0
  | [] => 0

/-- Length of the maximal run of \s characters at the head of the list. -/
def spaceRun : List Char → Nat
  | c :: rest => if isSpaceChar c then spaceRun rest + 1 else 0
  | [] => 0

/-- Maximal number of repetitions of (?:,\d{3}) at the head of the list.
Each repetition is exactly one comma and three digits, so greedy
matching of the group is deterministic. -/
def commaGroups : List Char → Nat
  | ',' :: a :: b :: c :: rest =>
    if isDigitChar a && isDigitChar b && isDigitChar c then commaGroups rest + 1
    else 0
  | _ => 0

/-- true when the list is empty or starts with a non-word character:
the \b condition after a word character. -/
def nonWordAtHead : List Char → Bool
  | [] => true
  | c :: _ => !isWordChar c

/-- n, n-1, ..., 1 — the preference order of a greedy quantifier that
may keep between n and 1 repetitions. -/
def countdownFrom : Nat → List Nat
  | 0 => []
  | n + 1 => (n + 1) :: countdownFrom n

/-- Candidates (consumed length, capture) of the first alternative
\d{1,3}(?:,\d{3})+ of NUM_TOKEN_RE at the head of cs, in backtracking
preference order: more leading digits first (greedy \d{1,3}), then more
comma groups first (greedy +). -/
def altACands (cs : List Char) : List (Nat × List Char) :=
  ((countdownFrom (Nat.min 3 (digitRun cs))).map (fun d =>
    (countdownFrom (commaGroups (cs.drop d))).map (fun n =>
      (d + 4 * n, cs.take (d + 4 * n))))).flatten

/-- Candidates of the second alternative \d+(?:\.\d+)? of NUM_TOKEN_RE
at the head of cs, in preference order: longer digit run first (greedy
\d+); for each, the optional fraction with more digits first (greedy),
then without the fraction. -/
def altBCands (cs : List Char) : List (Nat × List Char) :=
  ((countdownFrom (digitRun cs)).map (fun b =>
    (match cs.drop b with
     | '.' :: rest2 =>
       (countdownFrom (digitRun rest2)).map (fun f =>
         (b + 1 + f, cs.take (b + 1 + f)))
     | _ => []) ++ [(b, cs.take b)])).flatten

/-- All candidates of NUM_TOKEN_RE's group 1 at the head of cs, first
alternative before the second, as in the regex. -/
def numTokenCands (cs : List Char) : List (Nat × List Char) :=
  altACands cs ++ altBCands cs

/-- Candidates of the optional suffix group ([km])? (lower-cased input,
so IGNORECASE [km] is the two characters k and m): greedy, so the
one-character match is preferred over the empty one. -/
def sufCands (rest : List Char) : List (Nat × String) :=
  match rest with
  | c :: _ =>
    if c == 'k' || c == 'm' then [(1, String.singleton c), (0, "")]
    else [(0, "")]
  | [] => [(0, "")]

/-- The two suffix patterns passed to _extract_amounts:
rtcParen is RTC(?:\)|\b) (title scan), rtcWord is RTC\b (line scan). -/
inductive TailPat where
  | rtcParen
  | rtcWord
deriving DecidableEq, Repr

/-- Match \s*RTC(?:\)|\b) or \s*RTC\b at the head of cs on lower-cased
input, returning the consumed length.  Backtracking of \s* cannot help:
a shorter space run leaves a space where the literal r is required, so
the maximal run is the only viable choice.  In rtcParen the alternative
\) is preferred (and consumes the parenthesis); otherwise \b applies
after the word character c. -/
def tailMatch (pat : TailPat) (cs : List Char) : Option Nat :=
  let sp := spaceRun cs
  let rest := cs.drop sp
  if startsWithChars ['r', 't', 'c'] rest then
    let after := rest.drop 3
    match pat with
    | .rtcWord => if nonWordAtHead after then some (sp + 3) else none
    | .rtcParen =>
      match after with
      | ')' :: _ => some (sp + 3 + 1)
      | _ => if nonWordAtHead after then some (sp + 3) else none
  else none

/-- Match the full token pattern
\b(NUM)([km])?\b\s*RTC... at the head of cs.  prevW is whether the
character before cs is a word character; the leading \b forces it to be
false because group 1 starts with a digit.  Group 1 always ends in a
digit and a matched suffix is a letter, so the trailing \b requires the
next character to be non-word in either case.  Returns (consumed
length, raw capture, suffix capture). -/
def matchTokenAt (pat : TailPat) (prevW : Bool) (cs : List Char) :
    Option (Nat × String × String) :=
  if prevW then none
  else
    (numTokenCands cs).findSome? (fun cand =>
      (sufCands (cs.drop cand.1)).findSome? (fun sc =>
        let len2 := cand.1 + sc.1
        if nonWordAtHead (cs.drop len2) then
          match tailMatch pat (cs.drop len2) with
          | some t => some (len2 + t, String.mk cand.2, sc.2)
          | none => none
        else none))

/-- Match the fiat pattern \$\s*\b(NUM)([km])?\b at the head of cs.
After \$\s* the previous character is a dollar sign or a space (both
non-word) and group 1 starts with a digit, so the \b before the number
holds whenever a candidate exists.  A shorter space run would leave a
space where a digit is required, so the maximal run is the only viable
choice. -/
def matchUsdAt (cs : List Char) : Option (Nat × String × String) :=
  match cs with
  | '$' :: rest0 =>
    let sp := spaceRun rest0
    let rest := rest0.drop sp
    (numTokenCands rest).findSome? (fun cand =>
      (sufCands (rest.drop cand.1)).findSome? (fun sc =>
        let len2 := cand.1 + sc.1
        if nonWordAtHead (rest.drop len2) then
          some (1 + sp + len2, String.mk cand.2, sc.2)
        else none))
  | _ => none

/-- re.findall: scan left to right, try the matcher at every position,
emit the captures of each match and resume immediately after it (every
match consumes at least one character).  The fuel argument starts at
the length of the list and never runs out, because each step consumes
at least one character; it only makes the recursion structural. -/
def scanAllAux (m : Bool → List Char → Option (Nat × String × String)) :
    Nat → Bool → List Char → List (String × String)
  | 0, _, _ => []
  | _ + 1, _, [] => []
  | fuel + 1, prevW, c :: rest =>
    match m prevW (c :: rest) with
    | some (len, raw, suf) =>
      (raw, suf) ::
        scanAllAux m fuel (isWordChar ((c :: rest).getD (len - 1) c))
          ((c :: rest).drop (Nat.max len 1))
    | none => scanAllAux m fuel (isWordChar c) rest

/-- re.findall of the given single-position matcher over a whole text
(at the start of the text there is no preceding word character). -/
def scanAll (m : Bool → List Char → Option (Nat × String × String))
    (cs : List Char) : List (String × String) :=
  scanAllAux m cs.length false cs

/-! ### From captures to float values -/

/-- Numeric value of a digit list (most significant first). -/
def digitsVal (cs : List Char) : Nat :=
  cs.foldl (fun n c => n * 10 + (c.toNat - '0'.toNat)) 0

/-- raw.replace(",", "") on the captured number. -/
def stripCommas (cs : List Char) : List Char := cs.filter (fun c => !(c == ','))

/-- float(raw) on a captured number (digits with at most one decimal
point, as produced by NUM_TOKEN_RE): exact decimal value. -/
def parseDecimal (cs : List Char) : Dec :=
  let intPart := cs.takeWhile (fun c => !(c == '.'))
  let rest := cs.dropWhile (fun c => !(c == '.'))
  match rest with
  | _ :: frac =>
    ⟨(digitsVal intPart * 10 ^ frac.length + digitsVal frac : Nat), frac.length⟩
  | [] => ⟨(digitsVal intPart : Nat), 0⟩

/-- _suffix_multiplier: k is 1000, m is 1000000, anything else 1 (the
captured suffix is already lower-cased). -/
def suffix_multiplier (s : String) : Dec :=
  let low := pyLower s
  if low = "k" then ⟨1000, 0⟩
  else if low = "m" then ⟨1000000, 0⟩
  else ⟨1, 0⟩

/-- value = float(raw.replace(",", "")) * _suffix_multiplier(suffix). -/
def matchValue (p : String × String) : Dec :=
  Dec.mul (parseDecimal (stripCommas p.1.toList)) (suffix_multiplier p.2)

/-- _extract_amounts(text, suffix_pattern): all values of the token
pattern in the text (IGNORECASE realised by lower-casing the text). -/
def extract_amounts (text : String) (pat : TailPat) : List Dec :=
  (scanAll (matchTokenAt pat) (pyLower text).toList).map matchValue

/-- _extract_usd_amounts(text): all values of the fiat pattern. -/
def extract_usd_amounts (text : String) : List Dec :=
  (scanAll (fun _ cs => matchUsdAt cs) (pyLower text).toList).map matchValue

/-- _pick(values, default): max(values) when non-empty (Python max:
fold of two-argument max over the list from its head). -/
def pick (values : List Dec) (dflt : Dec) : Dec :=
  match values with
  | [] => dflt
  | v :: vs => vs.foldl Dec.pyMax v

/-! ### parse_reward -/

/-- RTC_USD_REF = 0.10. -/
def RTC_USD_REF : Dec := ⟨1, 1⟩

/-- Division by RTC_USD_REF = 1/10 is exact multiplication by 10. -/
def divByRef (d : Dec) : Dec := Dec.mul d ⟨10, 0⟩

/-- The reward-cue keywords of the line scan. -/
def line_cues : List String := ["reward", "bounty", "earn", "payout", "prize"]

/-- Does a line take part in the line scan: no "pool" in it, and at
least one reward cue (on the lower-cased line)? -/
def cue_line (line : String) : Bool :=
  let low := pyLower line
  !pyIn "pool" low && line_cues.any (fun k => pyIn k low)

/-- RTC values collected by the line scan of parse_reward. -/
def line_rtc_values (text : String) : List Dec :=
  ((splitlines text).map (fun line =>
    if cue_line line then extract_amounts line .rtcWord else [])).flatten

/-- Fiat values collected by the line scan of parse_reward. -/
def line_usd_values (text : String) : List Dec :=
  ((splitlines text).map (fun line =>
    if cue_line line then extract_usd_amounts line else [])).flatten

/-- "pool" in title.lower(). -/
def title_pool (title : String) : Bool := pyIn "pool" (pyLower title)

/-- The words of the last-resort guard re.search((?i)\b(reward|earn|payout)\b). -/
def guard_words : List String := ["reward", "earn", "payout"]

/-- Does the lower-cased text contain one of the words delimited by word
boundaries on both sides?  prevW is whether the previous character is a
word character. -/
def hasWholeWordAux (ws : List (List Char)) : Bool → List Char → Bool
  | _, [] => false
  | prevW, c :: rest =>
    ws.any (fun w =>
      !prevW && startsWithChars w (c :: rest) &&
        nonWordAtHead ((c :: rest).drop w.length)) ||
    hasWholeWordAux ws (isWordChar c) rest

/-- re.search with pattern (?i)\b(reward|earn|payout)\b: whole-word,
case-insensitive occurrence test. -/
def hasWholeWord (ws : List String) (text : String) : Bool :=
  hasWholeWordAux (ws.map String.toList) false (pyLower text).toList

/-- The title_rtc list of parse_reward: the title's RTC amounts, or []
when the title mentions "pool". -/
def title_rtc_list (title : String) : List Dec :=
  if title_pool title then [] else extract_amounts title .rtcParen

/-- Tiers 1 and 2 of parse_reward: the title-declared amounts (the RTC
side suppressed when the title mentions "pool"), and if both sides are
zero, the line-scoped cue scan. -/
def parse_reward_base (body title : String) : Dec × Dec :=
  let text := title ++ "\n" ++ body
  let reward_rtc := pick (title_rtc_list title) Dec.zero
  let reward_usd := pick (extract_usd_amounts title) Dec.zero
  if Dec.eqv reward_rtc Dec.zero && Dec.eqv reward_usd Dec.zero then
    (pick (line_rtc_values text) Dec.zero, pick (line_usd_values text) Dec.zero)
  else (reward_rtc, reward_usd)

/-- Tier 4 of parse_reward: the last-resort whole-text parse, forced
back to (0, 0) when only pool-like language exists. -/
def last_resort (text : String) : Dec × Dec :=
  let reward_rtc := pick (extract_amounts text .rtcWord) Dec.zero
  let reward_usd := pick (extract_usd_amounts text) Dec.zero
  if pyIn "pool" (pyLower text) && !hasWholeWord guard_words text then
    (Dec.zero, Dec.zero)
  else (reward_rtc, reward_usd)

/-- Tier 5 of parse_reward: cross-fill the zero side from the positive
side via RTC_USD_REF (the second test reads the updated fiat side, as
in the source). -/
def crossFill (rtc usd : Dec) : Dec × Dec :=
  let usd1 := if Dec.eqv usd Dec.zero && Dec.lt Dec.zero rtc
    then Dec.mul rtc RTC_USD_REF else usd
  let rtc1 := if Dec.eqv rtc Dec.zero && Dec.lt Dec.zero usd1
    then divByRef usd1 else rtc
  (rtc1, usd1)

/-- parse_reward(body, title): title-declared amounts, else line-scoped
cue scan, else the pool-exclusive title guard returning (0, 0), else
the last-resort whole-text parse; finally cross-fill. -/
def parse_reward (body title : String) : Dec × Dec :=
  let text := title ++ "\n" ++ body
  let base := parse_reward_base body title
  if Dec.eqv base.1 Dec.zero && Dec.eqv base.2 Dec.zero && title_pool title then
    (Dec.zero, Dec.zero)
  else
    let step4 :=
      if Dec.eqv base.1 Dec.zero && Dec.eqv base.2 Dec.zero then last_resort text
      else base
    crossFill step4.1 step4.2

/-! ### Difficulty, capability fit, ranking -/

/-- The "high" keyword tier of estimate_difficulty. -/
def hard_terms : List String :=
  ["critical", "security", "red team", "hardening", "consensus", "major",
   "1000", "$1000"]

/-- The "medium" keyword tier of estimate_difficulty. -/
def mid_terms : List String :=
  ["standard", "dashboard", "tool", "api", "integration", "export"]

/-- The lower-cased concatenation title\nbody scanned by
estimate_difficulty and capability_fit. -/
def fit_text (title body : String) : String := pyLower (title ++ "\n" ++ body)

/-- estimate_difficulty(title, body): first matching tier wins. -/
def estimate_difficulty (title body : String) : String :=
  let text := fit_text title body
  if hard_terms.any (fun t => pyIn t text) then "high"
  else if mid_terms.any (fun t => pyIn t text) then "medium"
  else "low"

/-- The "plus" keyword set of capability_fit (+0.06 each). -/
def plus_terms : List String :=
  ["documentation", "docs", "readme", "seo", "tutorial", "python", "script",
   "bot", "audit", "review", "markdown"]

/-- The "minus" keyword set of capability_fit (-0.08 each). -/
def minus_terms : List String :=
  ["real hardware", "3d", "webgl", "dos", "sparc", "windows 3.1", "physical"]

/-- capability_fit(title, body): start at 0.5, add 0.06 per plus keyword
present, subtract 0.08 per minus keyword present, clamp into [0, 1]. -/
def capability_fit (title body : String) : Dec :=
  let text := fit_text title body
  let score := plus_terms.foldl
    (fun s p => if pyIn p text then Dec.add s ⟨6, 2⟩ else s) ⟨5, 1⟩
  let score := minus_terms.foldl
    (fun s m => if pyIn m text then Dec.sub s ⟨8, 2⟩ else s) score
  Dec.pyMax Dec.zero (Dec.pyMin ⟨1, 0⟩ score)

/-- The difficulty-penalty table of rank_score.  The Python dict lookup
raises on any other key; callers only ever pass the three values
produced by estimate_difficulty, and the model returns 0 elsewhere. -/
def diff_penalty (diff : String) : Dec :=
  if diff = "low" then ⟨0, 1⟩
  else if diff = "medium" then ⟨8, 1⟩
  else if diff = "high" then ⟨16, 1⟩
  else ⟨0, 0⟩

/-- Division by 25.0 is exact multiplication by 4/100. -/
def divBy25 (d : Dec) : Dec := ⟨d.num * 4, d.exp + 2⟩

/-- rank_score(reward_usd, diff, fit) =
round(reward_usd / 25.0 + fit * 3.0 - diff_penalty, 3). -/
def rank_score (reward_usd : Dec) (diff : String) (fit : Dec) : Dec :=
  Dec.roundTo 3 (Dec.sub (Dec.add (divBy25 reward_usd) (Dec.mul fit ⟨3, 0⟩))
    (diff_penalty diff))

/-! ### The scan pipeline -/

/-- An issue as consumed by scan (the fields the pipeline reads from the
fetched JSON object). -/
structure Issue where
  number : Nat
  title : String
  body : String
  html_url : String
  updated_at : String
deriving DecidableEq, Repr

/-- A ranked candidate bounty issue (the Lead dataclass). -/
structure Lead where
  number : Nat
  title : String
  url : String
  updated_at : String
  reward_rtc : Dec
  reward_usd : Dec
  difficulty : String
  capability_fit : Dec
  score : Dec
deriving DecidableEq, Repr

/-- The per-issue body of scan's loop: parse the reward, drop the issue
when its fiat reward is below the floor, otherwise build the Lead
(rounded reward and fit fields; the score is computed from the
unrounded values). -/
def scan_leads (issues : List Issue) (min_usd : Dec) : List Lead :=
  issues.filterMap (fun i =>
    let amounts := parse_reward i.body i.title
    if Dec.lt amounts.2 min_usd then none
    else
      let diff := estimate_difficulty i.title i.body
      let fit := capability_fit i.title i.body
      some { number := i.number
             title := i.title
             url := i.html_url
             updated_at := i.updated_at
             reward_rtc := Dec.roundTo 3 amounts.1
             reward_usd := Dec.roundTo 2 amounts.2
             difficulty := diff
             capability_fit := Dec.roundTo 3 fit
             score := rank_score amounts.2 diff fit })

/-- The sort order of scan: descending by score.  Python's list.sort
with reverse=True is a stable sort, and insertionSort with this
non-strict relation is the (unique) stable descending sort. -/
def lead_score_ge (a b : Lead) : Prop := Dec.le b.score a.score = true

instance : DecidableRel lead_score_ge := fun a b => by
  unfold lead_score_ge; infer_instance

/-- scan(owner, repo, top, min_usd) after the fetch: build the leads,
sort them descending by score, truncate to top. -/
def scan (issues : List Issue) (top : Nat) (min_usd : Dec) : List Lead :=
  (List.insertionSort lead_score_ge (scan_leads issues min_usd)).take top

/-! ### Payout-signal mining, action classification, comment posting -/

/-- An issue comment as consumed by payout_signal_from_comments. -/
structure GhComment where
  body : String
deriving DecidableEq, Repr

/-- The "queued" cue phrases (checked first in the source). -/
def queued_cues : List String := ["payout queued", "queued id", "pending id"]

/-- The "paid" cue phrases (checked second in the source). -/
def paid_cues : List String := ["paid", "payout sent", "confirmed payout"]

/-- The "needs_update" cue phrases (checked third in the source). -/
def needs_update_cues : List String :=
  ["changes requested", "please update", "partial progress"]

/-- "\n".join on a list of strings. -/
def joinNL : List String → String
  | [] => ""
  | [s] => s
  | s :: rest => s ++ "\n" ++ joinNL rest

/-- The newline-joined lower-cased comment bodies scanned for cues. -/
def signal_text (comments : List GhComment) : String :=
  joinNL (comments.map (fun c => pyLower c.body))

/-- payout_signal_from_comments: substring cue match over the joined
lower-cased comment bodies, queued before paid before needs_update. -/
def payout_signal_from_comments (comments : List GhComment) : String :=
  let text := signal_text comments
  if queued_cues.any (fun k => pyIn k text) then "queued"
  else if paid_cues.any (fun k => pyIn k text) then "paid"
  else if needs_update_cues.any (fun k => pyIn k text) then "needs_update"
  else "none"

/-- classify_payout_action: ordered decision table, first match wins. -/
def classify_payout_action (merged : Bool) (pr_state issue_state payout_signal : String) :
    String :=
  if payout_signal = "paid" then "complete"
  else if payout_signal = "queued" then "wait_payout_queue"
  else if payout_signal = "needs_update" then "address_review"
  else if merged then "request_payout"
  else if pr_state = "closed" then "check_followup"
  else if issue_state = "closed" then "verify_closure"
  else "wait_for_review"

/-- Outcome of post_issue_comment: the dry-run preview record
(posted=False), the live-post record (posted=True, a POST was
performed), or the ValueError gh_post raises before any network request
when the token is empty. -/
inductive PostOutcome where
  | preview (target body_preview : String)
  | live (target : String)
  | raised (msg : String)
deriving DecidableEq, Repr

/-- post_issue_comment(owner, repo, issue_no, body, token, dry_run,
confirm): dry_run or missing confirmation returns the preview record;
otherwise gh_post is called, which raises before any network request
when the token is empty and performs the POST otherwise. -/
def post_issue_comment (owner repo : String) (issue_no : Nat) (body token : String)
    (dry_run confirm : Bool) : PostOutcome :=
  if dry_run || !confirm then
    PostOutcome.preview (owner ++ "/" ++ repo ++ "#" ++ toString issue_no)
      (String.mk (body.toList.take 280))
  else if token = "" then
    PostOutcome.raised "GitHub token is required for POST actions"
  else
    PostOutcome.live (owner ++ "/" ++ repo ++ "#" ++ toString issue_no)

/-- Whether an outcome performed a network write (the POST request). -/
def performs_write : PostOutcome → Bool
  | .live _ => true
  | _ => false

/-- The posted field of the returned record, none when an exception was
raised instead of returning a record. -/
def posted_field : PostOutcome → Option Bool
  | .preview _ _ => some false
  | .live _ => some true
  | .raised _ => none

/-! ### Bridging lemmas: decimal operations against their rational values -/

theorem Dec.toQ_zero : Dec.zero.toQ = 0 := by
  norm_num [Dec.zero, Dec.toQ]

theorem Dec.eqv_iff (a b : Dec) : Dec.eqv a b = true ↔ a.toQ = b.toQ := by
  unfold Dec.eqv Dec.toQ
  rw [beq_iff_eq, div_eq_div_iff (by positivity) (by positivity)]
  constructor <;> intro h <;> exact_mod_cast h

theorem Dec.le_iff (a b : Dec) : Dec.le a b = true ↔ a.toQ ≤ b.toQ := by
  unfold Dec.le Dec.toQ
  rw [decide_eq_true_eq, div_le_div_iff₀ (by positivity) (by positivity)]
  constructor <;> intro h <;> exact_mod_cast h

theorem Dec.lt_iff (a b : Dec) : Dec.lt a b = true ↔ a.toQ < b.toQ := by
  unfold Dec.lt Dec.toQ
  rw [decide_eq_true_eq, div_lt_div_iff₀ (by positivity) (by positivity)]
  constructor <;> intro h <;> exact_mod_cast h

theorem Dec.toQ_mul (a b : Dec) : (Dec.mul a b).toQ = a.toQ * b.toQ := by
  unfold Dec.mul Dec.toQ
  rw [div_mul_div_comm, ← pow_add]
  push_cast
  ring

theorem Dec.toQ_nonneg_iff (d : Dec) : 0 ≤ d.toQ ↔ 0 ≤ d.num := by
  unfold Dec.toQ
  rw [le_div_iff₀ (by positivity), zero_mul]
  exact_mod_cast Iff.rfl

theorem Dec.toQ_pos_iff (d : Dec) : 0 < d.toQ ↔ 0 < d.num := by
  unfold Dec.toQ
  rw [lt_div_iff₀ (by positivity), zero_mul]
  exact_mod_cast Iff.rfl

theorem Dec.pyMax_toQ (a b : Dec) : (Dec.pyMax a b).toQ = max a.toQ b.toQ := by
  unfold Dec.pyMax
  by_cases h : Dec.lt a b = true
  · rw [if_pos h, max_eq_right (le_of_lt ((Dec.lt_iff a b).mp h))]
  · rw [if_neg h, max_eq_left]
    exact le_of_not_lt (fun hlt => h ((Dec.lt_iff a b).mpr hlt))

theorem Dec.pyMin_toQ (a b : Dec) : (Dec.pyMin a b).toQ = min a.toQ b.toQ := by
  unfold Dec.pyMin
  by_cases h : Dec.lt b a = true
  · rw [if_pos h, min_eq_right (le_of_lt ((Dec.lt_iff b a).mp h))]
  · rw [if_neg h, min_eq_left]
    exact le_of_not_lt (fun hlt => h ((Dec.lt_iff b a).mpr hlt))

/-! ### Non-negativity of everything the reward extractor produces -/

theorem parseDecimal_num_nonneg (cs : List Char) : 0 ≤ (parseDecimal cs).num := by
  simp only [parseDecimal]
  split <;> exact Int.natCast_nonneg _

theorem suffix_multiplier_num_nonneg (s : String) : 0 ≤ (suffix_multiplier s).num := by
  simp only [suffix_multiplier]
  split
  · norm_num
  · split <;> norm_num

theorem matchValue_num_nonneg (p : String × String) : 0 ≤ (matchValue p).num :=
  mul_nonneg (parseDecimal_num_nonneg _) (suffix_multiplier_num_nonneg _)

theorem extract_amounts_nonneg (text : String) (pat : TailPat) :
    ∀ d ∈ extract_amounts text pat, 0 ≤ d.num := by
  intro d hd
  rw [extract_amounts, List.mem_map] at hd
  obtain ⟨p, _, rfl⟩ := hd
  exact matchValue_num_nonneg p

theorem extract_usd_amounts_nonneg (text : String) :
    ∀ d ∈ extract_usd_amounts text, 0 ≤ d.num := by
  intro d hd
  rw [extract_usd_amounts, List.mem_map] at hd
  obtain ⟨p, _, rfl⟩ := hd
  exact matchValue_num_nonneg p

theorem foldl_pyMax_nonneg (vs : List Dec) (v : Dec) (hv : 0 ≤ v.num)
    (hvs : ∀ x ∈ vs, 0 ≤ x.num) : 0 ≤ (vs.foldl Dec.pyMax v).num := by
  induction vs generalizing v with
  | nil => exact hv
  | cons x xs ih =>
    refine ih _ ?_ (fun y hy => hvs y (List.mem_cons_of_mem x hy))
    unfold Dec.pyMax
    split
    · exact hvs x (List.mem_cons_self x xs)
    · exact hv

theorem pick_nonneg (values : List Dec) (dflt : Dec) (hd : 0 ≤ dflt.num)
    (hv : ∀ x ∈ values, 0 ≤ x.num) : 0 ≤ (pick values dflt).num := by
  unfold pick
  match values with
  | [] => exact hd
  | v :: vs =>
    exact foldl_pyMax_nonneg vs v (hv v (List.mem_cons_self v vs))
      (fun y hy => hv y (List.mem_cons_of_mem v hy))

theorem line_rtc_values_nonneg (text : String) :
    ∀ d ∈ line_rtc_values text, 0 ≤ d.num := by
  intro d hd
  rw [line_rtc_values, List.mem_flatten] at hd
  obtain ⟨l, hl, hdl⟩ := hd
  rw [List.mem_map] at hl
  obtain ⟨line, _, rfl⟩ := hl
  by_cases hc : cue_line line = true
  · rw [if_pos hc] at hdl
    exact extract_amounts_nonneg line .rtcWord d hdl
  · rw [if_neg hc] at hdl
    exact absurd hdl (List.not_mem_nil d)

theorem line_usd_values_nonneg (text : String) :
    ∀ d ∈ line_usd_values text, 0 ≤ d.num := by
  intro d hd
  rw [line_usd_values, List.mem_flatten] at hd
  obtain ⟨l, hl, hdl⟩ := hd
  rw [List.mem_map] at hl
  obtain ⟨line, _, rfl⟩ := hl
  by_cases hc : cue_line line = true
  · rw [if_pos hc] at hdl
    exact extract_usd_amounts_nonneg line d hdl
  · rw [if_neg hc] at hdl
    exact absurd hdl (List.not_mem_nil d)

theorem title_rtc_list_nonneg (title : String) :
    ∀ d ∈ title_rtc_list title, 0 ≤ d.num := by
  intro d hd
  rw [title_rtc_list] at hd
  split at hd
  · exact absurd hd (List.not_mem_nil d)
  · exact extract_amounts_nonneg title .rtcParen d hd

theorem parse_reward_base_nonneg (body title : String) :
    0 ≤ (parse_reward_base body title).1.num ∧ 0 ≤ (parse_reward_base body title).2.num := by
  simp only [parse_reward_base]
  split
  · exact ⟨pick_nonneg _ _ (by norm_num [Dec.zero]) (line_rtc_values_nonneg _),
      pick_nonneg _ _ (by norm_num [Dec.zero]) (line_usd_values_nonneg _)⟩
  · exact ⟨pick_nonneg _ _ (by norm_num [Dec.zero]) (title_rtc_list_nonneg title),
      pick_nonneg _ _ (by norm_num [Dec.zero]) (extract_usd_amounts_nonneg title)⟩

theorem last_resort_nonneg (text : String) :
    0 ≤ (last_resort text).1.num ∧ 0 ≤ (last_resort text).2.num := by
  simp only [last_resort]
  split
  · norm_num [Dec.zero]
  · exact ⟨pick_nonneg _ _ (by norm_num [Dec.zero]) (extract_amounts_nonneg text .rtcWord),
      pick_nonneg _ _ (by norm_num [Dec.zero]) (extract_usd_amounts_nonneg text)⟩

/-- RTC_USD_REF as a rational. -/
theorem RTC_USD_REF_toQ : RTC_USD_REF.toQ = 1 / 10 := by
  norm_num [RTC_USD_REF, Dec.toQ]

/-- The cross-fill invariant: from non-negative inputs, both outputs
are non-negative and the token side is positive exactly when the fiat
side is. -/
theorem crossFill_spec (r u : Dec) (hr : 0 ≤ r.num) (hu : 0 ≤ u.num) :
    0 ≤ (crossFill r u).1.toQ ∧ 0 ≤ (crossFill r u).2.toQ ∧
      (0 < (crossFill r u).1.toQ ↔ 0 < (crossFill r u).2.toQ) := by
  have hrq : 0 ≤ r.toQ := (Dec.toQ_nonneg_iff r).mpr hr
  have huq : 0 ≤ u.toQ := (Dec.toQ_nonneg_iff u).mpr hu
  by_cases h1 : (Dec.eqv u Dec.zero && Dec.lt Dec.zero r) = true
  · have hr0 : 0 < r.toQ := by
      have hb := h1
      rw [Bool.and_eq_true] at hb
      have := (Dec.lt_iff Dec.zero r).mp hb.2
      rwa [Dec.toQ_zero] at this
    have hfill : 0 < (Dec.mul r RTC_USD_REF).toQ := by
      rw [Dec.toQ_mul, RTC_USD_REF_toQ]
      positivity
    have h2 : (Dec.eqv r Dec.zero && Dec.lt Dec.zero (Dec.mul r RTC_USD_REF)) = false := by
      rw [Bool.and_eq_false_iff]
      left
      rw [Bool.eq_false_iff]
      intro hcon
      have := (Dec.eqv_iff r Dec.zero).mp hcon
      rw [Dec.toQ_zero] at this
      exact absurd this (ne_of_gt hr0)
    have e : crossFill r u = (r, Dec.mul r RTC_USD_REF) := by
      simp [crossFill, h1, h2]
    rw [e]
    exact ⟨le_of_lt hr0, le_of_lt hfill, by simp [hr0, hfill]⟩
  · by_cases h2 : (Dec.eqv r Dec.zero && Dec.lt Dec.zero u) = true
    · have hu0 : 0 < u.toQ := by
        have hb := h2
        rw [Bool.and_eq_true] at hb
        have := (Dec.lt_iff Dec.zero u).mp hb.2
        rwa [Dec.toQ_zero] at this
      have hfill : 0 < (divByRef u).toQ := by
        rw [divByRef, Dec.toQ_mul]
        have h10 : (⟨10, 0⟩ : Dec).toQ = 10 := by norm_num [Dec.toQ]
        rw [h10]
        positivity
      have e : crossFill r u = (divByRef u, u) := by
        simp [crossFill, h1, h2, divByRef]
      rw [e]
      exact ⟨le_of_lt hfill, le_of_lt hu0, by simp [hfill, hu0]⟩
    · have e : crossFill r u = (r, u) := by
        simp [crossFill, h1, h2]
      rw [e]
      refine ⟨hrq, huq, ?_⟩
      rw [Bool.and_eq_true, not_and_or] at h1 h2
      constructor
      · intro hrpos
        rcases lt_or_eq_of_le huq with h | h
        · exact h
        · exfalso
          rcases h1 with h1 | h1
          · exact h1 ((Dec.eqv_iff u Dec.zero).mpr (by rw [Dec.toQ_zero]; exact h.symm))
          · exact h1 ((Dec.lt_iff Dec.zero r).mpr (by rwa [Dec.toQ_zero]))
      · intro hupos
        rcases lt_or_eq_of_le hrq with h | h
        · exact h
        · exfalso
          rcases h2 with h2 | h2
          · exact h2 ((Dec.eqv_iff r Dec.zero).mpr (by rw [Dec.toQ_zero]; exact h.symm))
          · exact h2 ((Dec.lt_iff Dec.zero u).mpr (by rwa [Dec.toQ_zero]))

/-- C3: for every body and title, parse_reward returns a pair with both
components non-negative, and the token side is positive exactly when
the fiat side is: the zero side is always filled from the positive side
by the fixed conversion rate, and only the all-absent case leaves both
at zero. -/
theorem parse_reward_cross_fill_invariant (body title : String) :
    0 ≤ (parse_reward body title).1.toQ ∧ 0 ≤ (parse_reward body title).2.toQ ∧
      (0 < (parse_reward body title).1.toQ ↔ 0 < (parse_reward body title).2.toQ) := by
  by_cases hg : (Dec.eqv (parse_reward_base body title).1 Dec.zero &&
      Dec.eqv (parse_reward_base body title).2 Dec.zero && title_pool title) = true
  · have e : parse_reward body title = (Dec.zero, Dec.zero) := by
      simp [parse_reward, hg]
    rw [e]
    simp [Dec.toQ_zero]
  · by_cases hz : (Dec.eqv (parse_reward_base body title).1 Dec.zero &&
        Dec.eqv (parse_reward_base body title).2 Dec.zero) = true
    · have hp : ¬ title_pool title = true := fun hpt => hg (by simp [hz, hpt])
      have e : parse_reward body title =
          crossFill (last_resort (title ++ "\n" ++ body)).1
            (last_resort (title ++ "\n" ++ body)).2 := by
        simp [parse_reward, hg, hz, hp]
      rw [e]
      exact crossFill_spec _ _ (last_resort_nonneg _).1 (last_resort_nonneg _).2
    · have e : parse_reward body title =
          crossFill (parse_reward_base body title).1 (parse_reward_base body title).2 := by
        simp [parse_reward, hg, hz]
      rw [e]
      exact crossFill_spec _ _ (parse_reward_base_nonneg body title).1
        (parse_reward_base_nonneg body title).2

/-- C4 (amended): if the title mentions "pool", the title carries no
fiat amount, and no reward-cue keyword occurs on any pool-free line of
the combined text, then parse_reward returns (0, 0). -/
theorem parse_reward_pool_guard (body title : String)
    (hp : title_pool title = true)
    (hu : extract_usd_amounts title = [])
    (hl : ∀ line ∈ splitlines (title ++ "\n" ++ body),
      pyIn "pool" (pyLower line) = false →
        line_cues.any (fun k => pyIn k (pyLower line)) = false) :
    parse_reward body title = (Dec.zero, Dec.zero) := by
  have hcue : ∀ line ∈ splitlines (title ++ "\n" ++ body), cue_line line = false := by
    intro line hline
    unfold cue_line
    by_cases hpool : pyIn "pool" (pyLower line) = true
    · simp [hpool]
    · rw [Bool.not_eq_true] at hpool
      simp [hpool, hl line hline hpool]
  have hrtc : line_rtc_values (title ++ "\n" ++ body) = [] := by
    rw [line_rtc_values, List.flatten_eq_nil_iff]
    intro l hl2
    rw [List.mem_map] at hl2
    obtain ⟨line, hline, rfl⟩ := hl2
    rw [if_neg]
    rw [hcue line hline]
    simp
  have husd : line_usd_values (title ++ "\n" ++ body) = [] := by
    rw [line_usd_values, List.flatten_eq_nil_iff]
    intro l hl2
    rw [List.mem_map] at hl2
    obtain ⟨line, hline, rfl⟩ := hl2
    rw [if_neg]
    rw [hcue line hline]
    simp
  have hbase : parse_reward_base body title = (Dec.zero, Dec.zero) := by
    simp [parse_reward_base, title_rtc_list, hp, hu, hrtc, husd, pick, Dec.eqv, Dec.zero]
  rw [parse_reward, hbase]
  simp [hp, Dec.eqv, Dec.zero]

/-- Witness for C4: a concrete pool-titled issue with no fiat amount in
the title and no reward cue on any pool-free line parses to (0, 0). -/
theorem parse_reward_pool_guard_witness :
    parse_reward "General discussion about the project" "Team pool fund" =
      (Dec.zero, Dec.zero) :=
  parse_reward_pool_guard "General discussion about the project" "Team pool fund"
    (by decide) (by decide) (by decide)

/-- Counterexample for C4 as stated: a title containing "pool" and no
reward-cue keyword on any pool-free line, yet parse_reward does not
return (0, 0), because the fiat amount in the title is extracted even
for pool titles. -/
theorem parse_reward_pool_title_cex :
    title_pool "Community pool: $200" = true ∧
    (∀ line ∈ splitlines ("Community pool: $200" ++ "\n" ++ ""),
      pyIn "pool" (pyLower line) = false →
        line_cues.any (fun k => pyIn k (pyLower line)) = false) ∧
    parse_reward "" "Community pool: $200" ≠ (Dec.zero, Dec.zero) ∧
    (parse_reward "" "Community pool: $200").2.toQ = 200 := by
  refine ⟨by decide, by decide, by decide, ?_⟩
  have h : (parse_reward "" "Community pool: $200").2 = ⟨200, 0⟩ := by decide
  rw [h]
  norm_num [Dec.toQ]

/-- C5: a title-declared amount wins over body pool mentions, and pool
lines are excluded from the line scan: the first example yields token
amount 75 (not the 200 from the body pool sentence), the second yields
token amount 4 (the pool line's 75 is skipped). -/
theorem parse_reward_title_priority_and_pool_lines :
    (parse_reward "May include larger campaign pool 200 RTC."
        "[BOUNTY] wRTC Visibility Pack (75 RTC)").1.toQ = 75 ∧
    (parse_reward "Reward: 4 RTC\nCommunity support bounty pool: 75 RTC Pool"
        "[MICRO-BOUNTY] Social task").1.toQ = 4 := by
  constructor
  · have h : (parse_reward "May include larger campaign pool 200 RTC."
        "[BOUNTY] wRTC Visibility Pack (75 RTC)").1 = ⟨75, 0⟩ := by decide
    rw [h]
    norm_num [Dec.toQ]
  · have h : (parse_reward "Reward: 4 RTC\nCommunity support bounty pool: 75 RTC Pool"
        "[MICRO-BOUNTY] Social task").1 = ⟨4, 0⟩ := by decide
    rw [h]
    norm_num [Dec.toQ]

/-- C6: reward numbers accept thousands separators and the k and m
magnitude suffixes: 1,500 RTC parses to token 1500, $2k to fiat 2000,
and 1.2m RTC to token 1200000. -/
theorem parse_reward_separators_and_suffixes :
    (parse_reward "Reward: 1,500 RTC" "...").1.toQ = 1500 ∧
    (parse_reward "Bounty: $2k" "...").2.toQ = 2000 ∧
    (parse_reward "Reward: 1.2m RTC" "...").1.toQ = 1200000 := by
  refine ⟨?_, ?_, ?_⟩
  · have h : (parse_reward "Reward: 1,500 RTC" "...").1 = ⟨1500, 0⟩ := by decide
    rw [h]
    norm_num [Dec.toQ]
  · have h : (parse_reward "Bounty: $2k" "...").2 = ⟨2000, 0⟩ := by decide
    rw [h]
    norm_num [Dec.toQ]
  · have h : (parse_reward "Reward: 1.2m RTC" "...").1 = ⟨12000000, 1⟩ := by decide
    rw [h]
    norm_num [Dec.toQ]

/-- C7: estimate_difficulty always lands in the three tiers, the high
tier is checked first and wins over the medium tier, the medium tier
applies only when no high keyword matches, and low is the default. -/
theorem estimate_difficulty_tiers (title body : String) :
    (estimate_difficulty title body = "low" ∨ estimate_difficulty title body = "medium" ∨
      estimate_difficulty title body = "high") ∧
    ((hard_terms.any fun t => pyIn t (fit_text title body)) = true →
      estimate_difficulty title body = "high") ∧
    ((hard_terms.any fun t => pyIn t (fit_text title body)) = false →
      (mid_terms.any fun t => pyIn t (fit_text title body)) = true →
      estimate_difficulty title body = "medium") ∧
    ((hard_terms.any fun t => pyIn t (fit_text title body)) = false →
      (mid_terms.any fun t => pyIn t (fit_text title body)) = false →
      estimate_difficulty title body = "low") := by
  by_cases hh : (hard_terms.any fun t => pyIn t (fit_text title body)) = true
  · have e : estimate_difficulty title body = "high" := by
      simp [estimate_difficulty, hh]
    rw [e]
    refine ⟨Or.inr (Or.inr rfl), fun _ => rfl, fun hf _ => ?_, fun hf _ => ?_⟩
    · rw [hf] at hh
      exact (Bool.false_ne_true hh).elim
    · rw [hf] at hh
      exact (Bool.false_ne_true hh).elim
  · by_cases hm : (mid_terms.any fun t => pyIn t (fit_text title body)) = true
    · have e : estimate_difficulty title body = "medium" := by
        simp [estimate_difficulty, hh, hm]
      rw [e]
      exact ⟨Or.inr (Or.inl rfl), fun ht => absurd ht hh, fun _ _ => rfl,
        fun _ hf => by rw [hf] at hm; exact (Bool.false_ne_true hm).elim⟩
    · have e : estimate_difficulty title body = "low" := by
        simp [estimate_difficulty, hh, hm]
      rw [e]
      exact ⟨Or.inl rfl, fun ht => absurd ht hh, fun _ ht => absurd ht hm, fun _ _ => rfl⟩

/-- Witness for C7 at concrete inputs: a high keyword forces "high", and
medium keywords with no high keyword give "medium". -/
theorem estimate_difficulty_tiers_witness :
    estimate_difficulty "critical security hardening" "" = "high" ∧
    estimate_difficulty "tooling bot" "api integration" = "medium" :=
  ⟨(estimate_difficulty_tiers "critical security hardening" "").2.1 (by decide),
   (estimate_difficulty_tiers "tooling bot" "api integration").2.2.1 (by decide) (by decide)⟩

/-- C8: capability_fit always lies in [0, 1]: the keyword increments and
decrements start from 0.5 and the result is clamped into the bounds. -/
theorem capability_fit_bounds (title body : String) :
    0 ≤ (capability_fit title body).toQ ∧ (capability_fit title body).toQ ≤ 1 := by
  have e : ∀ s : Dec, 0 ≤ (Dec.pyMax Dec.zero (Dec.pyMin ⟨1, 0⟩ s)).toQ ∧
      (Dec.pyMax Dec.zero (Dec.pyMin ⟨1, 0⟩ s)).toQ ≤ 1 := by
    intro s
    rw [Dec.pyMax_toQ, Dec.pyMin_toQ, Dec.toQ_zero]
    have h1 : (⟨1, 0⟩ : Dec).toQ = 1 := by norm_num [Dec.toQ]
    rw [h1]
    exact ⟨le_max_left _ _, max_le (by norm_num) (min_le_left _ _)⟩
  exact e _

/-- Counterexample for C1 as stated: a comment text containing the paid
cue "paid" together with a queued cue is classified "queued", not
"paid" — the source checks the queued cues first. -/
theorem payout_signal_queued_preempts_paid_cex :
    (paid_cues.any fun k => pyIn k (signal_text [⟨"Paid! payout queued."⟩])) = true ∧
    payout_signal_from_comments [⟨"Paid! payout queued."⟩] = "queued" :=
  ⟨by decide, by decide⟩

/-- C1 (amended): the cue groups are checked queued, then paid, then
needs_update: whenever the joined lower-cased comment text contains no
queued cue and at least one paid cue, the signal is "paid", even when
needs_update cues are also present. -/
theorem payout_signal_paid_priority (comments : List GhComment)
    (hq : (queued_cues.any fun k => pyIn k (signal_text comments)) = false)
    (hp : (paid_cues.any fun k => pyIn k (signal_text comments)) = true) :
    payout_signal_from_comments comments = "paid" := by
  simp [payout_signal_from_comments, hq, hp]

/-- Witness for C1 at a concrete input: a paid cue with a needs_update
cue (and no queued cue) yields "paid". -/
theorem payout_signal_paid_priority_witness :
    payout_signal_from_comments [⟨"Bounty paid yesterday. changes requested on docs."⟩] =
      "paid" :=
  payout_signal_paid_priority [⟨"Bounty paid yesterday. changes requested on docs."⟩]
    (by decide) (by decide)

/-- C10: payout cues are bare substrings, so a comment saying only
"unpaid so far" is classified "paid", and classify_payout_action then
returns "complete" for every merged flag, PR state, and issue state. -/
theorem payout_signal_bare_substring_paid (merged : Bool) (pr_state issue_state : String) :
    payout_signal_from_comments [⟨"unpaid so far"⟩] = "paid" ∧
    classify_payout_action merged pr_state issue_state "paid" = "complete" :=
  ⟨by decide, rfl⟩

/-- Counterexample for C2 as stated: with dry-run disabled and the
confirmation flag set but an empty token, post_issue_comment raises the
gh_post ValueError instead of returning a preview record with
posted=False (no POST is performed either way). -/
theorem post_issue_comment_missing_token_cex :
    post_issue_comment "Scottcjn" "rustchain-bounties" 34 "Submission update" "" false true =
      PostOutcome.raised "GitHub token is required for POST actions" ∧
    posted_field (post_issue_comment "Scottcjn" "rustchain-bounties" 34 "Submission update"
      "" false true) = none :=
  ⟨rfl, rfl⟩

/-- C2 (amended): if dry-run is on, or confirmation is missing, or the
token is empty, no POST request is performed; when dry-run is on or
confirmation is missing the call returns the preview record with
posted=False, while a missing token alone raises before any network
request. -/
theorem post_issue_comment_gate (owner repo : String) (issue_no : Nat)
    (body token : String) (dry_run confirm : Bool)
    (h : dry_run = true ∨ confirm = false ∨ token = "") :
    performs_write (post_issue_comment owner repo issue_no body token dry_run confirm) =
      false ∧
    (dry_run = true ∨ confirm = false →
      post_issue_comment owner repo issue_no body token dry_run confirm =
        PostOutcome.preview (owner ++ "/" ++ repo ++ "#" ++ toString issue_no)
          (String.mk (body.toList.take 280))) := by
  constructor
  · by_cases hflag : (dry_run || !confirm) = true
    · simp [post_issue_comment, hflag, performs_write]
    · rcases h with h | h | h
      · simp [h] at hflag
      · simp [h] at hflag
      · simp [post_issue_comment, hflag, h, performs_write]
  · intro h2
    have hflag : (dry_run || !confirm) = true := by
      rcases h2 with h2 | h2 <;> simp [h2]
    simp [post_issue_comment, hflag]

/-- Witness for C2 at a concrete input: with dry-run on, the call
performs no write and returns the preview record. -/
theorem post_issue_comment_gate_witness :
    performs_write (post_issue_comment "Scottcjn" "rustchain-bounties" 34 "Claiming this."
      "sometoken" true true) = false ∧
    post_issue_comment "Scottcjn" "rustchain-bounties" 34 "Claiming this."
        "sometoken" true true =
      PostOutcome.preview ("Scottcjn" ++ "/" ++ "rustchain-bounties" ++ "#" ++ toString 34)
        (String.mk ("Claiming this.".toList.take 280)) :=
  ⟨(post_issue_comment_gate "Scottcjn" "rustchain-bounties" 34 "Claiming this."
      "sometoken" true true (Or.inl rfl)).1,
   (post_issue_comment_gate "Scottcjn" "rustchain-bounties" 34 "Claiming this."
      "sometoken" true true (Or.inl rfl)).2 (Or.inl rfl)⟩

theorem lead_score_ge_total : IsTotal Lead lead_score_ge :=
  ⟨fun a b => by
    unfold lead_score_ge
    rcases le_total b.score.toQ a.score.toQ with h | h
    · exact Or.inl ((Dec.le_iff _ _).mpr h)
    · exact Or.inr ((Dec.le_iff _ _).mpr h)⟩

theorem lead_score_ge_trans : IsTrans Lead lead_score_ge :=
  ⟨fun a b c hab hbc => by
    unfold lead_score_ge at hab hbc ⊢
    exact (Dec.le_iff _ _).mpr
      (le_trans ((Dec.le_iff _ _).mp hbc) ((Dec.le_iff _ _).mp hab))⟩

/-- C9 (amended): the scan pipeline keeps at most top leads, the output
is sorted in non-increasing order of ranking score, and every returned
lead comes from a fetched issue whose parsed fiat reward is at least
min_usd, the lead's stored fiat field being that amount rounded to two
decimal places. -/
theorem scan_postconditions (issues : List Issue) (top : Nat) (min_usd : Dec) :
    (scan issues top min_usd).length ≤ top ∧
    List.Pairwise (fun a b => b.score.toQ ≤ a.score.toQ) (scan issues top min_usd) ∧
    (∀ l ∈ scan issues top min_usd, ∃ i ∈ issues,
      min_usd.toQ ≤ (parse_reward i.body i.title).2.toQ ∧
      l.reward_usd = Dec.roundTo 2 (parse_reward i.body i.title).2) := by
  refine ⟨List.length_take_le _ _, ?_, ?_⟩
  · have hs := @List.sorted_insertionSort Lead lead_score_ge _ lead_score_ge_total
      lead_score_ge_trans (scan_leads issues min_usd)
    have hp : List.Pairwise lead_score_ge (scan issues top min_usd) :=
      List.Pairwise.sublist (List.take_sublist _ _) hs
    exact hp.imp (fun hab => (Dec.le_iff _ _).mp hab)
  · intro l hl
    have hl2 : l ∈ List.insertionSort lead_score_ge (scan_leads issues min_usd) :=
      List.mem_of_mem_take hl
    have hl3 : l ∈ scan_leads issues min_usd :=
      (List.perm_insertionSort lead_score_ge _).mem_iff.mp hl2
    rw [scan_leads, List.mem_filterMap] at hl3
    obtain ⟨i, hi, hfi⟩ := hl3
    refine ⟨i, hi, ?_⟩
    by_cases hlt : Dec.lt (parse_reward i.body i.title).2 min_usd = true
    · simp only [hlt] at hfi
      simp at hfi
    · simp only [hlt] at hfi
      simp at hfi
      constructor
      · exact le_of_not_lt (fun hcon => hlt ((Dec.lt_iff _ _).mpr hcon))
      · rw [← hfi]

/-- Witness for C9 at a concrete input: the single lead produced from a
one-issue list is accounted for by that issue, whose parsed fiat reward
clears the zero floor. -/
theorem scan_postconditions_witness :
    ∃ i ∈ [(⟨1, "t", "Reward: 10 RTC", "u", "d"⟩ : Issue)],
      Dec.zero.toQ ≤ (parse_reward i.body i.title).2.toQ ∧
      (⟨1, "t", "u", "d", ⟨10, 0⟩, ⟨10, 1⟩, "low", ⟨5, 1⟩, ⟨1540, 3⟩⟩ : Lead).reward_usd =
        Dec.roundTo 2 (parse_reward i.body i.title).2 :=
  (scan_postconditions [⟨1, "t", "Reward: 10 RTC", "u", "d"⟩] 10 Dec.zero).2.2
    ⟨1, "t", "u", "d", ⟨10, 0⟩, ⟨10, 1⟩, "low", ⟨5, 1⟩, ⟨1540, 3⟩⟩ (by decide)

/-- Counterexample for C9 as stated: the floor is checked against the
parsed fiat reward before rounding, and the lead stores the rounded
value, so a returned lead's stored fiat reward can be strictly below
min_usd: with min_usd = 100.004 the issue parses to fiat 100.004,
passes the floor, and the lead stores round(100.004, 2) = 100.0. -/
theorem scan_floor_rounding_cex :
    ((scan [⟨1, "Visibility micro task", "Reward: 1000.04 RTC", "url", "2025"⟩] 10
        ⟨100004, 3⟩).map Lead.reward_usd) = [⟨10000, 2⟩] ∧
    (⟨10000, 2⟩ : Dec).toQ < (⟨100004, 3⟩ : Dec).toQ := by
  constructor
  · decide
  · norm_num [Dec.toQ]
